import Mathlib

/-!
Shallow embedding of the halo2 gadget layer in `weijiekoh/halo2_circuits`:
the boolean-enforced mux chip (`mux/src/gadget/mux/chip.rs`), the draft mux
chip in `mux/src/main.rs`, the subtraction chip (`subtract/src/main.rs`),
and the private-input loaders (`subtract/src/main.rs`, `mux/src/utils.rs`).

The embedding models the synthesis (witness) pass of the halo2 assignment
API: `assign_advice` demands a concrete value (an `Except Error F`), a
region records advice assignments, copy constraints and selector
activations, and a layouter accumulates regions and allocates fresh cells.
Gate polynomials declared by `configure` are modelled as expression ASTs
with an evaluation semantics.
-/

namespace Halo2

/-- Opaque cell identifier (a `halo2::circuit::Cell`). -/
abbrev Cell := Nat

/-- The only error constructor this code ever produces. -/
inductive Error where
  | SynthesisError
  deriving DecidableEq, Repr

/-- Structure `CellValue` from `mux/src/utils.rs`: a cell plus an optional value. -/
structure CellValue (F : Type) where
  cell : Cell
  value : Option F
  deriving DecidableEq, Repr

/-- Structure `Number` from `mux/src/main.rs` and `subtract/src/main.rs`
(same shape as `CellValue`). -/
structure Number (F : Type) where
  cell : Cell
  value : Option F
  deriving DecidableEq, Repr

/-- Rust `Option::ok_or` as used by every `assign_advice` closure. -/
def okOr (v : Option F) (e : Error) : Except Error F :=
  match v with
  | some x => Except.ok x
  | none => Except.error e

/-- Gate expression AST: constants, advice queries (column, rotation),
selector queries, and ring operations, mirroring `halo2::plonk::Expression`. -/
inductive Expression (F : Type) where
  | const : F → Expression F
  | advice : Nat → Int → Expression F
  | sel : Nat → Expression F
  | neg : Expression F → Expression F
  | sum : Expression F → Expression F → Expression F
  | prod : Expression F → Expression F → Expression F
  deriving DecidableEq, Repr

/-- Subtraction of expressions, as the `Sub` impl on `Expression`. -/
def Expression.sub (a b : Expression F) : Expression F :=
  Expression.sum a (Expression.neg b)

/-- Evaluate an expression under an advice valuation (column, rotation)
and a selector valuation. -/
def Expression.eval [Ring F] (adv : Nat → Int → F) (s : Nat → F) :
    Expression F → F
  | Expression.const c => c
  | Expression.advice col rot => adv col rot
  | Expression.sel i => s i
  | Expression.neg e => - (e.eval adv s)
  | Expression.sum a b => a.eval adv s + b.eval adv s
  | Expression.prod a b => a.eval adv s * b.eval adv s

/-- A named gate: the list of polynomial identities one `create_gate`
call contributes. -/
structure Gate (F : Type) where
  gateName : String
  polys : List (Expression F)
  deriving DecidableEq, Repr

/-- The slice of `ConstraintSystem` state the chips mutate during
`configure`: selector allocation, gates, equality-enabled columns. -/
structure ConstraintSystem (F : Type) where
  numSelectors : Nat
  gates : List (Gate F)
  equalityColumns : List Nat
  deriving DecidableEq, Repr

/-- Model of `meta.selector()`: allocate a fresh selector id. -/
def ConstraintSystem.newSelector (cs : ConstraintSystem F) :
    ConstraintSystem F × Nat :=
  ({ cs with numSelectors := cs.numSelectors + 1 }, cs.numSelectors)

/-- Model of `meta.create_gate(name, ...)`: append a gate. -/
def ConstraintSystem.createGate (cs : ConstraintSystem F) (n : String)
    (polys : List (Expression F)) : ConstraintSystem F :=
  { cs with gates := cs.gates ++ [⟨n, polys⟩] }

/-- Model of `meta.enable_equality(column)`. -/
def ConstraintSystem.enableEquality (cs : ConstraintSystem F) (col : Nat) :
    ConstraintSystem F :=
  { cs with equalityColumns := cs.equalityColumns ++ [col] }

/-- One advice assignment made inside a region: which column, which
relative row, the witnessed value, and the fresh cell it created. -/
structure AdviceAssign (F : Type) where
  column : Nat
  row : Nat
  value : F
  cell : Cell
  deriving DecidableEq, Repr

/-- A region under construction: fresh-cell counter plus the recorded
assignments, copy constraints and selector activations. -/
structure Region (F : Type) where
  nextCell : Cell
  assignments : List (AdviceAssign F)
  copies : List (Cell × Cell)
  enabled : List (Nat × Nat)
  deriving DecidableEq, Repr

/-- Model of `region.assign_advice` in the synthesis pass:
the value closure must yield a concrete field element, a fresh cell is
allocated and the assignment recorded. -/
def Region.assign_advice (r : Region F) (column row : Nat)
    (valueThunk : Except Error F) : Except Error (Region F × Cell) :=
  match valueThunk with
  | Except.error e => Except.error e
  | Except.ok v =>
      Except.ok
        ({ r with
            nextCell := r.nextCell + 1,
            assignments := r.assignments ++ [⟨column, row, v, r.nextCell⟩] },
          r.nextCell)

/-- Model of `region.constrain_equal(left, right)`: record a copy constraint. -/
def Region.constrain_equal (r : Region F) (left right : Cell) : Region F :=
  { r with copies := r.copies ++ [(left, right)] }

/-- Model of `selector.enable(region, offset)`: record a selector activation. -/
def Region.enable (r : Region F) (s row : Nat) : Region F :=
  { r with enabled := r.enabled ++ [(s, row)] }

/-- A closed region as it appears in the accumulated trace. -/
structure RegionTrace (F : Type) where
  regionName : String
  assignments : List (AdviceAssign F)
  copies : List (Cell × Cell)
  enabled : List (Nat × Nat)
  deriving DecidableEq, Repr

/-- The layouter state: the fresh-cell counter and the list of regions
committed so far. -/
structure Layouter (F : Type) where
  nextCell : Cell
  regions : List (RegionTrace F)
  deriving DecidableEq, Repr

/-- Model of `layouter.assign_region(name, f)`: run the region closure on an empty
region; on success append the closed region to the trace. -/
def Layouter.assign_region (l : Layouter F) (n : String)
    (f : Region F → Except Error (Region F × A)) :
    Except Error (Layouter F × A) :=
  match f ⟨l.nextCell, [], [], []⟩ with
  | Except.error e => Except.error e
  | Except.ok (r, a) =>
      Except.ok
        ({ nextCell := r.nextCell,
           regions := l.regions ++ [⟨n, r.assignments, r.copies, r.enabled⟩] },
          a)

end Halo2

namespace Halo2

namespace Gadget

/-- Config `MuxConfig` from `mux/src/gadget/mux/chip.rs`: three advice columns
and the two selectors. -/
structure MuxConfig where
  advice : Fin 3 → Nat
  s_mux : Nat
  s_bool : Nat

/-- The polynomial of the "bool" gate in `MuxChip::configure`:
`s_bool * selector * (1 - selector)`, with `selector` queried from the
third advice column at the current row. -/
def boolGatePoly [One F] (advice : Fin 3 → Nat) (s_bool : Nat) : Expression F :=
  Expression.prod
    (Expression.prod (Expression.sel s_bool) (Expression.advice (advice 2) 0))
    (Expression.sub (Expression.const 1) (Expression.advice (advice 2) 0))

/-- The polynomial of the "mux" gate in `MuxChip::configure`:
`s_mux * (out - ((b - a) * selector + a))`, with `a`, `b`, `selector`
queried at the current row of the three advice columns and `out` at the
next row of the first. -/
def muxGatePoly (advice : Fin 3 → Nat) (s_mux : Nat) : Expression F :=
  Expression.prod (Expression.sel s_mux)
    (Expression.sub (Expression.advice (advice 0) 1)
      (Expression.sum
        (Expression.prod
          (Expression.sub (Expression.advice (advice 1) 0)
            (Expression.advice (advice 0) 0))
          (Expression.advice (advice 2) 0))
        (Expression.advice (advice 0) 0)))

/-- Translation of `MuxChip::configure` from `mux/src/gadget/mux/chip.rs`: enable
equality on the three advice columns, allocate `s_bool`, create the
"bool" gate, allocate `s_mux`, create the "mux" gate. -/
def MuxChip.configure [One F] (meta : ConstraintSystem F) (advice : Fin 3 → Nat) :
    ConstraintSystem F × MuxConfig :=
  let meta := ((meta.enableEquality (advice 0)).enableEquality
      (advice 1)).enableEquality (advice 2)
  let p := meta.newSelector
  let meta := p.1.createGate "bool" [boolGatePoly advice p.2]
  let q := meta.newSelector
  let meta := q.1.createGate "mux" [muxGatePoly advice q.2]
  (meta, ⟨advice, q.2, p.2⟩)

/-- The `mux_value` computation in `MuxChip::mux`
(`mux/src/gadget/mux/chip.rs` lines 132-136): `a` if the selector value
is `Some(0)`, else `b`, each demanded via `ok_or(SynthesisError)`. -/
def mux_value [Zero F] [DecidableEq F] (a b s : Option F) : Except Error F :=
  if s = some (0 : F) then okOr a Error.SynthesisError
  else okOr b Error.SynthesisError

/-- Translation of `MuxChip::mux` from `mux/src/gadget/mux/chip.rs`: assign `a`, `b`,
`selector` at row 0 of the three advice columns, copy-constrain each to
its input cell, enable `s_bool` and `s_mux` at row 0, compute
`mux_value` and assign it at row 1 of the first advice column. -/
def MuxChip.mux [Zero F] [DecidableEq F] (config : MuxConfig)
    (layouter : Layouter F) (a b selector : CellValue F) :
    Except Error (Layouter F × CellValue F) :=
  layouter.assign_region "mux" (fun region => do
    let pa ← region.assign_advice (config.advice 0) 0
      (okOr a.value Error.SynthesisError)
    let pb ← pa.1.assign_advice (config.advice 1) 0
      (okOr b.value Error.SynthesisError)
    let ps ← pb.1.assign_advice (config.advice 2) 0
      (okOr selector.value Error.SynthesisError)
    let region := ps.1.constrain_equal a.cell pa.2
    let region := region.constrain_equal b.cell pb.2
    let region := region.constrain_equal selector.cell ps.2
    let region := region.enable config.s_bool 0
    let region := region.enable config.s_mux 0
    let v ← mux_value a.value b.value selector.value
    let pm ← region.assign_advice (config.advice 0) 1 (Except.ok v)
    Except.ok (pm.1, CellValue.mk pm.2 (some v)))

end Gadget

/-- Translation of `UtilitiesInstructions::load_private` from `mux/src/utils.rs`: a
one-row region with a single assignment of `value` into the given
column at offset 0, returning the fresh cell with the value. -/
def UtilitiesInstructions.load_private (layouter : Layouter F)
    (column : Nat) (value : Option F) :
    Except Error (Layouter F × CellValue F) :=
  layouter.assign_region "load private" (fun region => do
    let p ← region.assign_advice column 0 (okOr value Error.SynthesisError)
    Except.ok (p.1, CellValue.mk p.2 value))

end Halo2

namespace Halo2

namespace MuxMain

/-- Config `MuxConfig` from the top-level `mux/src/main.rs`: three advice
columns and a single selector (no boolean-enforcement selector). -/
structure MuxConfig where
  advice : Fin 3 → Nat
  s_mux : Nat

/-- The polynomial of the "mux" gate in `MuxChip::configure` of
`mux/src/main.rs`: `s_mux * ((rhs - lhs) * xhs - out)` with `lhs`,
`rhs`, `xhs` queried at the current row of the three advice columns and
`out` at the next row of the first; note the absent `+ lhs` term. -/
def muxGatePoly (advice : Fin 3 → Nat) (s_mux : Nat) : Expression F :=
  Expression.prod (Expression.sel s_mux)
    (Expression.sub
      (Expression.prod
        (Expression.sub (Expression.advice (advice 1) 0)
          (Expression.advice (advice 0) 0))
        (Expression.advice (advice 2) 0))
      (Expression.advice (advice 0) 1))

/-- Translation of `MuxChip::configure` from `mux/src/main.rs`: allocate `s_mux` and
create the single "mux" gate. -/
def MuxChip.configure (meta : ConstraintSystem F) (advice : Fin 3 → Nat) :
    ConstraintSystem F × MuxConfig :=
  let p := meta.newSelector
  let meta := p.1.createGate "mux" [muxGatePoly advice p.2]
  (meta, ⟨advice, p.2⟩)

/-- Translation of `MuxChip::do_mux` from `mux/src/main.rs`: enable `s_mux` at row 0;
assign `a.value` and `b.value` into the first two advice columns at
row 0, and `b.value` (the source queries `b.value`, not `c.value`) into
the third; copy-constrain the three new cells to `a`, `b`, `c`; assign
the output value `b - a` at row 1 of the first advice column. -/
def MuxChip.do_mux [Sub F] (config : MuxConfig) (layouter : Layouter F)
    (a b c : Number F) : Except Error (Layouter F × Number F) :=
  layouter.assign_region "mux" (fun region => do
    let region := region.enable config.s_mux 0
    let pl ← region.assign_advice (config.advice 0) 0
      (okOr a.value Error.SynthesisError)
    let pr ← pl.1.assign_advice (config.advice 1) 0
      (okOr b.value Error.SynthesisError)
    let px ← pr.1.assign_advice (config.advice 2) 0
      (okOr b.value Error.SynthesisError)
    let region := px.1.constrain_equal a.cell pl.2
    let region := region.constrain_equal b.cell pr.2
    let region := region.constrain_equal c.cell px.2
    let value := a.value.bind (fun x => b.value.map (fun y => y - x))
    let po ← region.assign_advice (config.advice 0) 1
      (okOr value Error.SynthesisError)
    Except.ok (po.1, Number.mk po.2 value))

end MuxMain

namespace SubtractMain

/-- Config `SubtractConfig` from `subtract/src/main.rs`: two advice columns
and one selector. -/
structure SubtractConfig where
  advice : Fin 2 → Nat
  s_subtract : Nat

/-- The polynomial of the "subtract" gate in `SubtractChip::configure`:
`s_subtract * (lhs - rhs - out)` with `lhs`, `rhs` queried at the
current row of the two advice columns and `out` at the next row of the
first. -/
def subtractGatePoly (advice : Fin 2 → Nat) (s_subtract : Nat) :
    Expression F :=
  Expression.prod (Expression.sel s_subtract)
    (Expression.sub
      (Expression.sub (Expression.advice (advice 0) 0)
        (Expression.advice (advice 1) 0))
      (Expression.advice (advice 0) 1))

/-- Translation of `SubtractChip::configure` from `subtract/src/main.rs`: allocate
`s_subtract` and create the single "subtract" gate. -/
def SubtractChip.configure (meta : ConstraintSystem F)
    (advice : Fin 2 → Nat) : ConstraintSystem F × SubtractConfig :=
  let p := meta.newSelector
  let meta := p.1.createGate "subtract" [subtractGatePoly advice p.2]
  (meta, ⟨advice, p.2⟩)

/-- Translation of `SubtractChip::do_subtract` from `subtract/src/main.rs`: enable
`s_subtract` at row 0, assign `a.value` and `b.value` into the two
advice columns at row 0, copy-constrain them to the input cells, and
assign the exact field difference `a - b` at row 1 of the first advice
column. -/
def SubtractChip.do_subtract [Sub F] (config : SubtractConfig)
    (layouter : Layouter F) (a b : Number F) :
    Except Error (Layouter F × Number F) :=
  layouter.assign_region "subtract" (fun region => do
    let region := region.enable config.s_subtract 0
    let pl ← region.assign_advice (config.advice 0) 0
      (okOr a.value Error.SynthesisError)
    let pr ← pl.1.assign_advice (config.advice 1) 0
      (okOr b.value Error.SynthesisError)
    let region := pr.1.constrain_equal a.cell pl.2
    let region := region.constrain_equal b.cell pr.2
    let value := a.value.bind (fun x => b.value.map (fun y => x - y))
    let po ← region.assign_advice (config.advice 0) 1
      (okOr value Error.SynthesisError)
    Except.ok (po.1, Number.mk po.2 value))

/-- Config `FieldConfig` from `subtract/src/main.rs`: the two advice columns,
the instance column, and the sub-chip config. -/
structure FieldConfig where
  advice : Fin 2 → Nat
  inst : Nat
  subtract_config : SubtractConfig

/-- Translation of `FieldChip::load_private` from `subtract/src/main.rs` (the version
in `mux/src/main.rs` is identical): a one-row region assigning `value`
into the first advice column at offset 0, returning the fresh cell
wrapped as a `Number` with that value; no copy constraint. -/
def FieldChip.load_private (config : FieldConfig) (layouter : Layouter F)
    (value : Option F) : Except Error (Layouter F × Number F) :=
  layouter.assign_region "load private" (fun region => do
    let p ← region.assign_advice (config.advice 0) 0
      (okOr value Error.SynthesisError)
    Except.ok (p.1, Number.mk p.2 value))

end SubtractMain

end Halo2

namespace Halo2

/-- An advice valuation placing `a`, `b`, `s` in columns 0, 1, 2 at the
current row and `out` in column 0 at the next row (rotation 1). -/
def advRows (a b s out : F) [Zero F] : Nat → Int → F := fun col rot =>
  if rot = 0 then (if col = 0 then a else if col = 1 then b else s)
  else if col = 0 ∧ rot = 1 then out else 0

/-- Look up a cell among externally supplied input values. -/
def lookupInput (inputs : List (Cell × F)) (c : Cell) : Option F :=
  match inputs with
  | [] => none
  | p :: rest => if p.1 = c then some p.2 else lookupInput rest c

/-- Look up a cell among a region's advice assignments. -/
def lookupAssign (asgns : List (AdviceAssign F)) (c : Cell) : Option F :=
  match asgns with
  | [] => none
  | a :: rest => if a.cell = c then some a.value else lookupAssign rest c

/-- Look up the value witnessed at a cell: the externally supplied input
cells first, then the region's own assignments. -/
def cellValueAt (inputs : List (Cell × F)) (r : RegionTrace F) (c : Cell) :
    Option F :=
  match lookupInput inputs c with
  | some v => some v
  | none => lookupAssign r.assignments c

/-- A copy constraint is satisfied under a valuation exactly when the
two cells carry the same value. -/
def copySatisfied (val : Cell → Option F) (pr : Cell × Cell) : Prop :=
  val pr.1 = val pr.2

end Halo2

namespace Halo2

/-- Full evaluation of the gadget chip's `mux` on three present values:
it succeeds, appends one fully explicit region, and returns the cell
`nextCell + 3` carrying `a` if the selector value is 0 and `b`
otherwise. -/
theorem gadget_mux_some_eval (F : Type) [Zero F] [DecidableEq F]
    (config : Gadget.MuxConfig) (l : Layouter F) (ca cb cs : Cell)
    (va vb vs : F) :
    Gadget.MuxChip.mux config l ⟨ca, some va⟩ ⟨cb, some vb⟩ ⟨cs, some vs⟩ =
      Except.ok
        ({ nextCell := l.nextCell + 4,
           regions := l.regions ++
             [⟨"mux",
               [⟨config.advice 0, 0, va, l.nextCell⟩,
                ⟨config.advice 1, 0, vb, l.nextCell + 1⟩,
                ⟨config.advice 2, 0, vs, l.nextCell + 2⟩,
                ⟨config.advice 0, 1, if vs = 0 then va else vb,
                  l.nextCell + 3⟩],
               [(ca, l.nextCell), (cb, l.nextCell + 1), (cs, l.nextCell + 2)],
               [(config.s_bool, 0), (config.s_mux, 0)]⟩] },
         ⟨l.nextCell + 3, some (if vs = 0 then va else vb)⟩) := by
  by_cases h : vs = 0 <;>
    simp [Gadget.MuxChip.mux, Gadget.mux_value, Layouter.assign_region,
      Region.assign_advice, Region.constrain_equal, Region.enable, okOr, h,
      bind, Except.bind]

end Halo2

namespace Halo2

/-- Full evaluation of `SubtractChip::do_subtract` on two present
values: it succeeds, appends one explicit region, and returns the cell
`nextCell + 2` carrying the exact field difference `a - b`. -/
theorem subtract_some_eval (F : Type) [Sub F]
    (config : SubtractMain.SubtractConfig) (l : Layouter F) (ca cb : Cell)
    (va vb : F) :
    SubtractMain.SubtractChip.do_subtract config l ⟨ca, some va⟩
        ⟨cb, some vb⟩ =
      Except.ok
        ({ nextCell := l.nextCell + 3,
           regions := l.regions ++
             [⟨"subtract",
               [⟨config.advice 0, 0, va, l.nextCell⟩,
                ⟨config.advice 1, 0, vb, l.nextCell + 1⟩,
                ⟨config.advice 0, 1, va - vb, l.nextCell + 2⟩],
               [(ca, l.nextCell), (cb, l.nextCell + 1)],
               [(config.s_subtract, 0)]⟩] },
         ⟨l.nextCell + 2, some (va - vb)⟩) := by
  simp [SubtractMain.SubtractChip.do_subtract, Layouter.assign_region,
    Region.assign_advice, Region.constrain_equal, Region.enable, okOr,
    bind, Except.bind]

/-- Full evaluation of the top-level `MuxChip::do_mux` on three present
values: it succeeds, the third region cell receives `b`'s value (not
`c`'s), and the output cell receives `b - a` independent of `c`. -/
theorem mux_main_do_mux_some_eval (F : Type) [Sub F]
    (config : MuxMain.MuxConfig) (l : Layouter F) (ca cb cc : Cell)
    (va vb vc : F) :
    MuxMain.MuxChip.do_mux config l ⟨ca, some va⟩ ⟨cb, some vb⟩
        ⟨cc, some vc⟩ =
      Except.ok
        ({ nextCell := l.nextCell + 4,
           regions := l.regions ++
             [⟨"mux",
               [⟨config.advice 0, 0, va, l.nextCell⟩,
                ⟨config.advice 1, 0, vb, l.nextCell + 1⟩,
                ⟨config.advice 2, 0, vb, l.nextCell + 2⟩,
                ⟨config.advice 0, 1, vb - va, l.nextCell + 3⟩],
               [(ca, l.nextCell), (cb, l.nextCell + 1), (cc, l.nextCell + 2)],
               [(config.s_mux, 0)]⟩] },
         ⟨l.nextCell + 3, some (vb - va)⟩) := by
  simp [MuxMain.MuxChip.do_mux, Layouter.assign_region,
    Region.assign_advice, Region.constrain_equal, Region.enable, okOr,
    bind, Except.bind]

end Halo2

namespace Halo2

/-- C1: for all field elements `a`, `b` and every selector value
`s ∈ {0,1}`, when all three input values are present the gadget chip's
`mux` succeeds and the returned witnessed value equals `a` when `s = 0`
and `b` when `s = 1`. -/
theorem gadget_mux_returns_selected (F : Type) [Field F] [DecidableEq F]
    (config : Gadget.MuxConfig) (l : Layouter F) (ca cb cs : Cell)
    (va vb vs : F) (hs : vs = 0 ∨ vs = 1) :
    ∃ l2 out,
      Gadget.MuxChip.mux config l ⟨ca, some va⟩ ⟨cb, some vb⟩ ⟨cs, some vs⟩
          = Except.ok (l2, out) ∧
        (vs = 0 → out.value = some va) ∧ (vs = 1 → out.value = some vb) := by
  refine ⟨_, _, gadget_mux_some_eval F config l ca cb cs va vb vs, ?_, ?_⟩
  · intro h; simp [h]
  · intro h
    have h0 : vs ≠ 0 := by rw [h]; exact one_ne_zero
    simp [h0]

/-- Witness for C1 at `a = 2`, `b = 3`, `s = 1` over `ℚ`. -/
theorem gadget_mux_returns_selected_witness :
    ∃ l2 out,
      Gadget.MuxChip.mux (F := ℚ) ⟨fun i => i.val, 1, 0⟩ ⟨3, []⟩
          ⟨0, some 2⟩ ⟨1, some 3⟩ ⟨2, some 1⟩ = Except.ok (l2, out) ∧
        ((1 : ℚ) = 0 → out.value = some 2) ∧
        ((1 : ℚ) = 1 → out.value = some 3) :=
  gadget_mux_returns_selected ℚ ⟨fun i => i.val, 1, 0⟩ ⟨3, []⟩ 0 1 2 2 3 1
    (Or.inr rfl)

end Halo2

namespace Halo2

/-- C2: `do_subtract` on two present values succeeds and returns the
exact field difference `a - b`; the gate configured by
`SubtractChip::configure` is the single polynomial identity
`s_subtract * (lhs - rhs - out)`, guarded by the one allocated selector,
over the two advice input columns. -/
theorem subtract_correct (F : Type) [Field F]
    (config : SubtractMain.SubtractConfig) (l : Layouter F) (ca cb : Cell)
    (va vb : F) (advice : Fin 2 → Nat) (adv : Nat → Int → F) (s : Nat → F) :
    (∃ l2 out,
      SubtractMain.SubtractChip.do_subtract config l ⟨ca, some va⟩
          ⟨cb, some vb⟩ = Except.ok (l2, out) ∧
        out.value = some (va - vb)) ∧
    (SubtractMain.SubtractChip.configure (F := F) ⟨0, [], []⟩ advice).1.gates
        = [⟨"subtract", [SubtractMain.subtractGatePoly advice 0]⟩] ∧
    (SubtractMain.SubtractChip.configure (F := F) ⟨0, [], []⟩
        advice).1.numSelectors = 1 ∧
    (SubtractMain.subtractGatePoly (F := F) advice 0).eval adv s
        = s 0 * (adv (advice 0) 0 - adv (advice 1) 0 - adv (advice 0) 1) := by
  refine ⟨⟨_, _, subtract_some_eval F config l ca cb va vb, rfl⟩, rfl, rfl, ?_⟩
  simp only [SubtractMain.subtractGatePoly, Expression.eval, Expression.sub]
  ring

/-- C3: the boolean-enforcement gate configured by the gadget mux chip is
`s_bool * s * (1 - s)` over the third advice column at the current row,
and with the selector active it evaluates to zero iff `s` is 0 or 1. -/
theorem gadget_bool_gate_iff (F : Type) [Field F] (advice : Fin 3 → Nat)
    (adv : Nat → Int → F) (s : Nat → F) (hsb : s 0 = 1) :
    (Gadget.MuxChip.configure (F := F) ⟨0, [], []⟩ advice).1.gates
        = [⟨"bool", [Gadget.boolGatePoly advice 0]⟩,
           ⟨"mux", [Gadget.muxGatePoly advice 1]⟩] ∧
    ((Gadget.boolGatePoly (F := F) advice 0).eval adv s = 0 ↔
      adv (advice 2) 0 = 0 ∨ adv (advice 2) 0 = 1) := by
  refine ⟨rfl, ?_⟩
  have hx : (Gadget.boolGatePoly (F := F) advice 0).eval adv s
      = adv (advice 2) 0 * (1 - adv (advice 2) 0) := by
    simp only [Gadget.boolGatePoly, Expression.eval, Expression.sub, hsb]
    ring
  rw [hx, mul_eq_zero, sub_eq_zero]
  exact or_congr Iff.rfl eq_comm

/-- Witness for C3 over `ℚ` with all advice values 0 and the selector
valuation constantly 1. -/
theorem gadget_bool_gate_iff_witness :
    (Gadget.MuxChip.configure (F := ℚ) ⟨0, [], []⟩ (fun i => i.val)).1.gates
        = [⟨"bool", [Gadget.boolGatePoly (fun i => i.val) 0]⟩,
           ⟨"mux", [Gadget.muxGatePoly (fun i => i.val) 1]⟩] ∧
    ((Gadget.boolGatePoly (F := ℚ) (fun i => i.val) 0).eval
        (fun _ _ => 0) (fun _ => 1) = 0 ↔
      (0 : ℚ) = 0 ∨ (0 : ℚ) = 1) :=
  gadget_bool_gate_iff ℚ (fun i => i.val) (fun _ _ => 0) (fun _ => 1) rfl

/-- C4: for boolean selector `s`, the exact case-split output of
`mux_value` (`a` if `s = 0` else `b`) satisfies the mux gate polynomial
`out - ((b - a) * s + a) = 0`: the case split agrees with the arithmetic
blend. -/
theorem mux_case_split_satisfies_gate (F : Type) [Field F] [DecidableEq F]
    (a b s : F) (hs : s = 0 ∨ s = 1) :
    Gadget.mux_value (some a) (some b) (some s)
        = Except.ok (if s = 0 then a else b) ∧
    (Gadget.muxGatePoly (fun i => i.val) 1).eval
        (advRows a b s (if s = 0 then a else b)) (fun _ => 1) = 0 := by
  constructor
  · by_cases h : s = 0 <;> simp [Gadget.mux_value, okOr, h]
  · rcases hs with h | h <;>
      simp [Gadget.muxGatePoly, Expression.eval, Expression.sub, advRows, h] <;>
      ring

/-- Witness for C4 at `a = 2`, `b = 3`, `s = 1` over `ℚ`. -/
theorem mux_case_split_satisfies_gate_witness :
    Gadget.mux_value (some (2 : ℚ)) (some 3) (some 1)
        = Except.ok (if (1 : ℚ) = 0 then (2 : ℚ) else 3) ∧
    (Gadget.muxGatePoly (fun i => i.val) 1).eval
        (advRows 2 3 1 (if (1 : ℚ) = 0 then (2 : ℚ) else 3)) (fun _ => 1) = 0 :=
  mux_case_split_satisfies_gate ℚ 2 3 1 (Or.inr rfl)

end Halo2

namespace Halo2

/-- C5: whenever a witnessed value whose `Option` field is `none` is
queried during `mux`, `do_subtract` or `load_private`, the operation
returns the distinguishable failure `Error.SynthesisError`; it never
substitutes a default value. -/
theorem absent_value_gives_synthesis_error (F : Type) [Field F]
    [DecidableEq F] (mconfig : Gadget.MuxConfig)
    (sconfig : SubtractMain.SubtractConfig)
    (fconfig : SubtractMain.FieldConfig) (column : Nat) (l : Layouter F)
    (a b s : CellValue F) (x y : Number F)
    (hm : a.value = none ∨ b.value = none ∨ s.value = none)
    (hsub : x.value = none ∨ y.value = none) :
    Gadget.MuxChip.mux mconfig l a b s
        = Except.error Error.SynthesisError ∧
    SubtractMain.SubtractChip.do_subtract sconfig l x y
        = Except.error Error.SynthesisError ∧
    SubtractMain.FieldChip.load_private fconfig l none
        = Except.error Error.SynthesisError ∧
    UtilitiesInstructions.load_private l column (none : Option F)
        = Except.error Error.SynthesisError := by
  refine ⟨?_, ?_, rfl, rfl⟩
  · obtain ⟨ca, av⟩ := a; obtain ⟨cb, bv⟩ := b; obtain ⟨cs, sv⟩ := s
    rcases av with _ | va <;> rcases bv with _ | vb <;> rcases sv with _ | vs <;>
      simp_all [Gadget.MuxChip.mux, Gadget.mux_value, Layouter.assign_region,
        Region.assign_advice, Region.constrain_equal, Region.enable, okOr,
        bind, Except.bind]
  · obtain ⟨cx, xv⟩ := x; obtain ⟨cy, yv⟩ := y
    rcases xv with _ | vx <;> rcases yv with _ | vy <;>
      simp_all [SubtractMain.SubtractChip.do_subtract, Layouter.assign_region,
        Region.assign_advice, Region.constrain_equal, Region.enable, okOr,
        bind, Except.bind]

/-- Witness for C5 with the first input of each operation absent,
over `ℚ`. -/
theorem absent_value_gives_synthesis_error_witness :
    Gadget.MuxChip.mux (F := ℚ) ⟨fun i => i.val, 1, 0⟩ ⟨3, []⟩
        ⟨0, none⟩ ⟨1, some 1⟩ ⟨2, some 0⟩
        = Except.error Error.SynthesisError ∧
    SubtractMain.SubtractChip.do_subtract (F := ℚ) ⟨fun i => i.val, 0⟩
        ⟨2, []⟩ ⟨0, none⟩ ⟨1, some 1⟩
        = Except.error Error.SynthesisError ∧
    SubtractMain.FieldChip.load_private (F := ℚ)
        ⟨fun i => i.val, 5, ⟨fun i => i.val, 0⟩⟩ ⟨0, []⟩ none
        = Except.error Error.SynthesisError ∧
    UtilitiesInstructions.load_private ⟨0, []⟩ 0 (none : Option ℚ)
        = Except.error Error.SynthesisError :=
  absent_value_gives_synthesis_error ℚ ⟨fun i => i.val, 1, 0⟩
    ⟨fun i => i.val, 0⟩ ⟨fun i => i.val, 5, ⟨fun i => i.val, 0⟩⟩ 0 _
    ⟨0, none⟩ ⟨1, some 1⟩ ⟨2, some 0⟩ ⟨0, none⟩ ⟨1, some 1⟩
    (Or.inl rfl) (Or.inl rfl)

/-- C6: the `configure` of the top-level mux variant allocates exactly
one selector and creates one gate whose only polynomial is
`s_mux * ((b - a) * selector - out)`; with the selector active the
constraint holds iff `out = selector * (b - a)`, so the relation checked
is not a multiplexer. -/
theorem mux_main_gate_shape (F : Type) [Field F] (advice : Fin 3 → Nat)
    (adv : Nat → Int → F) (s : Nat → F) (hsel : s 0 = 1) :
    (MuxMain.MuxChip.configure (F := F) ⟨0, [], []⟩ advice).1.gates
        = [⟨"mux", [MuxMain.muxGatePoly advice 0]⟩] ∧
    (MuxMain.MuxChip.configure (F := F) ⟨0, [], []⟩ advice).1.numSelectors
        = 1 ∧
    (MuxMain.muxGatePoly (F := F) advice 0).eval adv s
        = s 0 * ((adv (advice 1) 0 - adv (advice 0) 0) * adv (advice 2) 0
            - adv (advice 0) 1) ∧
    ((MuxMain.muxGatePoly (F := F) advice 0).eval adv s = 0 ↔
      adv (advice 0) 1
        = adv (advice 2) 0 * (adv (advice 1) 0 - adv (advice 0) 0)) := by
  have he : (MuxMain.muxGatePoly (F := F) advice 0).eval adv s
      = s 0 * ((adv (advice 1) 0 - adv (advice 0) 0) * adv (advice 2) 0
          - adv (advice 0) 1) := by
    simp only [MuxMain.muxGatePoly, Expression.eval, Expression.sub]
    ring
  refine ⟨rfl, rfl, he, ?_⟩
  rw [he, hsel, one_mul, sub_eq_zero]
  constructor
  · intro h; rw [← h]; ring
  · intro h; rw [h]; ring

/-- Witness for C6 over `ℚ` with all advice values 0 and the selector
valuation constantly 1. -/
theorem mux_main_gate_shape_witness :
    (MuxMain.MuxChip.configure (F := ℚ) ⟨0, [], []⟩ (fun i => i.val)).1.gates
        = [⟨"mux", [MuxMain.muxGatePoly (fun i => i.val) 0]⟩] ∧
    (MuxMain.MuxChip.configure (F := ℚ) ⟨0, [], []⟩
        (fun i => i.val)).1.numSelectors = 1 ∧
    (MuxMain.muxGatePoly (F := ℚ) (fun i => i.val) 0).eval
        (fun _ _ => 0) (fun _ => 1)
        = 1 * (((0 : ℚ) - 0) * 0 - 0) ∧
    ((MuxMain.muxGatePoly (F := ℚ) (fun i => i.val) 0).eval
        (fun _ _ => 0) (fun _ => 1) = 0 ↔
      (0 : ℚ) = 0 * ((0 : ℚ) - 0)) :=
  mux_main_gate_shape ℚ (fun i => i.val) (fun _ _ => 0) (fun _ => 1) rfl

end Halo2

namespace Halo2

/-- C7: in the top-level `do_mux`, the third region cell (xhs), which is
copy-constrained to input `c`'s cell, is assigned `b`'s value, and the
output cell is assigned `b - a` independent of `c`; hence whenever `c`'s
value differs from `b`'s, the produced witness violates its own copy
constraint. The input cells are assumed distinct from the freshly
allocated region cells and from each other. -/
theorem mux_main_copy_violation (F : Type) [Field F] [DecidableEq F]
    (config : MuxMain.MuxConfig) (l : Layouter F) (ca cb cc : Cell)
    (va vb vc : F)
    (hca : ca < l.nextCell) (hcb : cb < l.nextCell) (hcc : cc < l.nextCell)
    (hac : cc ≠ ca) (hbc : cc ≠ cb) :
    ∃ l2 out,
      MuxMain.MuxChip.do_mux config l ⟨ca, some va⟩ ⟨cb, some vb⟩
          ⟨cc, some vc⟩ = Except.ok (l2, out) ∧
      ∃ r, l2.regions = l.regions ++ [r] ∧
        (⟨config.advice 2, 0, vb, l.nextCell + 2⟩ : AdviceAssign F)
            ∈ r.assignments ∧
        (cc, l.nextCell + 2) ∈ r.copies ∧
        out.value = some (vb - va) ∧
        (vc ≠ vb →
          ¬ copySatisfied (cellValueAt [(ca, va), (cb, vb), (cc, vc)] r)
              (cc, l.nextCell + 2)) := by
  refine ⟨_, _, mux_main_do_mux_some_eval F config l ca cb cc va vb vc, ?_⟩
  refine ⟨⟨"mux",
      [⟨config.advice 0, 0, va, l.nextCell⟩,
       ⟨config.advice 1, 0, vb, l.nextCell + 1⟩,
       ⟨config.advice 2, 0, vb, l.nextCell + 2⟩,
       ⟨config.advice 0, 1, vb - va, l.nextCell + 3⟩],
      [(ca, l.nextCell), (cb, l.nextCell + 1), (cc, l.nextCell + 2)],
      [(config.s_mux, 0)]⟩, rfl, ?_, ?_, rfl, ?_⟩
  · simp
  · simp
  · intro hne hsat
    have h0 : l.nextCell ≠ l.nextCell + 2 :=
      Nat.ne_of_lt (Nat.lt_add_of_pos_right (by decide))
    have h1 : l.nextCell + 1 ≠ l.nextCell + 2 :=
      Nat.ne_of_lt (Nat.add_lt_add_left (by decide) _)
    have hxa : ca ≠ l.nextCell + 2 :=
      Nat.ne_of_lt (Nat.lt_of_lt_of_le hca (Nat.le_add_right _ 2))
    have hxb : cb ≠ l.nextCell + 2 :=
      Nat.ne_of_lt (Nat.lt_of_lt_of_le hcb (Nat.le_add_right _ 2))
    have hxc : cc ≠ l.nextCell + 2 :=
      Nat.ne_of_lt (Nat.lt_of_lt_of_le hcc (Nat.le_add_right _ 2))
    have hvc : cellValueAt [(ca, va), (cb, vb), (cc, vc)]
        ⟨"mux",
          [⟨config.advice 0, 0, va, l.nextCell⟩,
           ⟨config.advice 1, 0, vb, l.nextCell + 1⟩,
           ⟨config.advice 2, 0, vb, l.nextCell + 2⟩,
           ⟨config.advice 0, 1, vb - va, l.nextCell + 3⟩],
          [(ca, l.nextCell), (cb, l.nextCell + 1), (cc, l.nextCell + 2)],
          [(config.s_mux, 0)]⟩ cc = some vc := by
      simp [cellValueAt, lookupInput, hac.symm, hbc.symm]
    have hvx : cellValueAt [(ca, va), (cb, vb), (cc, vc)]
        ⟨"mux",
          [⟨config.advice 0, 0, va, l.nextCell⟩,
           ⟨config.advice 1, 0, vb, l.nextCell + 1⟩,
           ⟨config.advice 2, 0, vb, l.nextCell + 2⟩,
           ⟨config.advice 0, 1, vb - va, l.nextCell + 3⟩],
          [(ca, l.nextCell), (cb, l.nextCell + 1), (cc, l.nextCell + 2)],
          [(config.s_mux, 0)]⟩ (l.nextCell + 2) = some vb := by
      simp [cellValueAt, lookupInput, lookupAssign, hxa, hxb, hxc, h0, h1]
    rw [copySatisfied, hvc, hvx] at hsat
    exact hne (Option.some.injEq _ _ ▸ hsat)

/-- Witness for C7 at `a = 1`, `b = 2`, `c = 3` over `ℚ`, with input
cells 0, 1, 2 and the region cells starting at 3. -/
theorem mux_main_copy_violation_witness :
    ∃ l2 out,
      MuxMain.MuxChip.do_mux (F := ℚ) ⟨fun i => i.val, 0⟩ ⟨3, []⟩
          ⟨0, some 1⟩ ⟨1, some 2⟩ ⟨2, some 3⟩ = Except.ok (l2, out) ∧
      ∃ r, l2.regions = ([] : List (RegionTrace ℚ)) ++ [r] ∧
        (⟨(2 : Fin 3).val, 0, 2, 3 + 2⟩ : AdviceAssign ℚ) ∈ r.assignments ∧
        ((2 : Cell), 3 + 2) ∈ r.copies ∧
        out.value = some ((2 : ℚ) - 1) ∧
        ((3 : ℚ) ≠ 2 →
          ¬ copySatisfied (cellValueAt [(0, 1), (1, 2), (2, 3)] r)
              ((2 : Cell), 3 + 2)) :=
  mux_main_copy_violation ℚ ⟨fun i => i.val, 0⟩ ⟨3, []⟩ 0 1 2 1 2 3
    (by decide) (by decide) (by decide) (by decide) (by decide)

end Halo2

namespace Halo2

/-- C8: for every present selector value `v` that is not 0 — including
every non-boolean `v` — the gadget `mux` succeeds and returns `b`; and
whenever additionally `v ≠ 1` and `a ≠ b`, that returned value does not
satisfy the activated mux gate polynomial `out - ((b - a) * v + a)`. -/
theorem gadget_mux_nonzero_selector (F : Type) [Field F] [DecidableEq F]
    (config : Gadget.MuxConfig) (l : Layouter F) (ca cb cs : Cell)
    (va vb v : F) (hv : v ≠ 0) :
    (∃ l2 out,
      Gadget.MuxChip.mux config l ⟨ca, some va⟩ ⟨cb, some vb⟩ ⟨cs, some v⟩
          = Except.ok (l2, out) ∧ out.value = some vb) ∧
    (v ≠ 1 → va ≠ vb →
      (Gadget.muxGatePoly (fun i => i.val) 1).eval
          (advRows va vb v vb) (fun _ => 1) ≠ 0) := by
  constructor
  · exact ⟨_, _, gadget_mux_some_eval F config l ca cb cs va vb v,
      by simp [hv]⟩
  · intro h1 hab
    have he : (Gadget.muxGatePoly (fun i => i.val) 1).eval
        (advRows va vb v vb) (fun _ => 1) = (vb - va) * (1 - v) := by
      simp [Gadget.muxGatePoly, Expression.eval, Expression.sub, advRows]
      ring
    rw [he]
    exact mul_ne_zero (sub_ne_zero.mpr (Ne.symm hab))
      (sub_ne_zero.mpr (Ne.symm h1))

/-- Witness for C8 at `a = 0`, `b = 1`, `v = 2` over `ℚ`. -/
theorem gadget_mux_nonzero_selector_witness :
    (∃ l2 out,
      Gadget.MuxChip.mux (F := ℚ) ⟨fun i => i.val, 1, 0⟩ ⟨3, []⟩
          ⟨0, some 0⟩ ⟨1, some 1⟩ ⟨2, some 2⟩
          = Except.ok (l2, out) ∧ out.value = some 1) ∧
    ((2 : ℚ) ≠ 1 → (0 : ℚ) ≠ 1 →
      (Gadget.muxGatePoly (fun i => i.val) 1).eval
          (advRows (0 : ℚ) 1 2 1) (fun _ => 1) ≠ 0) :=
  gadget_mux_nonzero_selector ℚ ⟨fun i => i.val, 1, 0⟩ ⟨3, []⟩ 0 1 2 0 1 2
    (by decide)

/-- C9: each successful gadget `mux` call appends exactly one region to
the trace, whose four assignments span the two rows 0 and 1 and the
three advice columns, with 3 copy constraints (one per input), the two
selector activations `s_bool` and `s_mux` both at relative row 0, and
the output assigned at relative row 1 in the first advice column. -/
theorem gadget_mux_frame (F : Type) [Field F] [DecidableEq F]
    (config : Gadget.MuxConfig) (l : Layouter F) (ca cb cs : Cell)
    (va vb vs : F) :
    ∃ l2 out,
      Gadget.MuxChip.mux config l ⟨ca, some va⟩ ⟨cb, some vb⟩ ⟨cs, some vs⟩
          = Except.ok (l2, out) ∧
      ∃ r, l2.regions = l.regions ++ [r] ∧
        r.assignments.map (fun x => x.row) = [0, 0, 0, 1] ∧
        r.assignments.map (fun x => x.column)
            = [config.advice 0, config.advice 1, config.advice 2,
               config.advice 0] ∧
        r.copies = [(ca, l.nextCell), (cb, l.nextCell + 1),
            (cs, l.nextCell + 2)] ∧
        r.copies.length = 3 ∧
        r.enabled = [(config.s_bool, 0), (config.s_mux, 0)] ∧
        (⟨config.advice 0, 1, if vs = 0 then va else vb, out.cell⟩ :
            AdviceAssign F) ∈ r.assignments ∧
        out.cell = l.nextCell + 3 := by
  refine ⟨_, _, gadget_mux_some_eval F config l ca cb cs va vb vs, ?_⟩
  refine ⟨⟨"mux",
      [⟨config.advice 0, 0, va, l.nextCell⟩,
       ⟨config.advice 1, 0, vb, l.nextCell + 1⟩,
       ⟨config.advice 2, 0, vs, l.nextCell + 2⟩,
       ⟨config.advice 0, 1, if vs = 0 then va else vb, l.nextCell + 3⟩],
      [(ca, l.nextCell), (cb, l.nextCell + 1), (cs, l.nextCell + 2)],
      [(config.s_bool, 0), (config.s_mux, 0)]⟩,
    rfl, rfl, rfl, rfl, rfl, rfl, ?_, rfl⟩
  simp

/-- C10: `load_private(value)` opens a one-row region with a single
assignment of the value into the designated advice column (the first
advice column for the composite field chip) at relative row 0, adds no
copy constraint and no selector activation, and returns the fresh cell
wrapped as a `Var` carrying that value. -/
theorem load_private_spec (F : Type) [Field F]
    (fconfig : SubtractMain.FieldConfig) (column : Nat) (l : Layouter F)
    (v : F) :
    SubtractMain.FieldChip.load_private fconfig l (some v)
        = Except.ok
          ({ nextCell := l.nextCell + 1,
             regions := l.regions ++
               [⟨"load private",
                 [⟨fconfig.advice 0, 0, v, l.nextCell⟩], [], []⟩] },
           ⟨l.nextCell, some v⟩) ∧
    UtilitiesInstructions.load_private l column (some v)
        = Except.ok
          ({ nextCell := l.nextCell + 1,
             regions := l.regions ++
               [⟨"load private", [⟨column, 0, v, l.nextCell⟩], [], []⟩] },
           ⟨l.nextCell, some v⟩) := by
  exact ⟨rfl, rfl⟩

end Halo2
